import Mathlib

/-!
Verification of the zone-resolution, certificate-validation publishing and
lifecycle handling logic of the cloudformation-ses-verifyDomain repository.

The two lambda sources are embedded shallowly:
* namespace `Acm` models `packages/cloudformation-acm-validationdns/index.js`
  (`getZoneIdByName`, `getZoneIdByFQDN`, `publishCertValidationDNS`,
  `lookupCertificate`, `processCREvent`);
* namespace `Ses` models `packages/cloudformation-ses-verifydomain/index.js`
  (`getZoneIdByName`, `verifyDomain`).

JavaScript string primitives (`split`, `endsWith`, `slice(0,-1)`,
`replace(pat, rep)`) are embedded as executable functions over `String.data`
so that every definition evaluates inside the kernel.  AWS service calls are
environment parameters; a call that can reject is a function into
`Except String`.
-/

deriving instance DecidableEq for Except

/-- JavaScript `s.split(sep)` for a one-character separator, accumulator form:
walks the character list, cutting a piece at every separator occurrence. -/
def splitOnCharAux (c : Char) : List Char → List Char → List String
  | [], acc => [String.mk acc.reverse]
  | a :: rest, acc =>
    if a = c then String.mk acc.reverse :: splitOnCharAux c rest []
    else splitOnCharAux c rest (a :: acc)

/-- JavaScript `s.split(".")`: note `"".split(".") == [""]`. -/
def jsSplitDot (s : String) : List String :=
  splitOnCharAux '.' s.data []

/-- JavaScript `s.endsWith(".")`. -/
def jsEndsWithDot (s : String) : Bool :=
  s.data.getLast? = some '.'

/-- JavaScript `s.slice(0, -1)`: the string without its final character. -/
def jsDropLast (s : String) : String :=
  String.mk s.data.dropLast

/-- JavaScript `s.replace(pat, rep)` on character lists: only the first
occurrence of `pat` is replaced. -/
def listReplaceFirst (pat rep : List Char) : List Char → List Char
  | [] => []
  | a :: rest =>
    if pat.isPrefixOf (a :: rest) then rep ++ (a :: rest).drop pat.length
    else a :: listReplaceFirst pat rep rest

/-- JavaScript `s.replace(pat, rep)` (string pattern: first occurrence only). -/
def jsReplaceFirst (s pat rep : String) : String :=
  String.mk (listReplaceFirst pat.data rep.data s.data)

/-- The string `s` carries a trailing `"."` separator. -/
def hasTrailingSep (s : String) : Prop :=
  s.data.getLast? = some '.'

instance (s : String) : Decidable (hasTrailingSep s) := by
  unfold hasTrailingSep; infer_instance

namespace Acm

/-- One entry of a Route53 `listHostedZonesByName` response. -/
structure HostedZone where
  Id : String
  Name : String
deriving DecidableEq

/-- One entry of an ACM `listCertificates` page. -/
structure CertSummary where
  CertificateArn : String
  DomainName : String
deriving DecidableEq

/-- The `ResourceRecord` of a domain validation option: `Type` of the source
is rendered as `RRType` (`Type` is reserved in Lean). -/
structure ResourceRecord where
  Name : String
  RRType : String
  Value : String
deriving DecidableEq

/-- One `DomainValidationOptions` entry of a described certificate. -/
structure ValidationOption where
  DomainName : String
  ValidationStatus : String
  ResourceRecord : ResourceRecord
deriving DecidableEq

/-- The part of an ACM `describeCertificate` response the code reads:
`Type` of the source is rendered as `CertType`. -/
structure Certificate where
  CertType : String
  DomainValidationOptions : List ValidationOption
deriving DecidableEq

/-- One change of a Route53 change batch (`Type` rendered as `RRType`). -/
structure Change where
  Action : String
  Name : String
  ResourceRecords : List String
  TTL : Nat
  RRType : String
deriving DecidableEq

/-- Providers for the ACM validation-DNS lambda.  `listHostedZonesByName` and
`testDNSAnswer` are total response functions; calls that the code has to
await and that may reject return `Except String`.  `listCertificates` maps a
1-based polling iteration to the finite page sequence the provider serves
during that iteration (each page is one fetch; a later element means the
previous response carried a `NextToken`). -/
structure Env where
  listHostedZonesByName : String → List HostedZone
  testDNSAnswer : String → String → String → List String
  changeResourceRecordSets : String → List Change → String → Except String String
  describeCertificate : String → Except String Certificate
  listCertificates : Nat → List (Except String (List CertSummary))
  remainingTimeMs : Nat

def UPSERT : String := "UPSERT"

def DELETE : String := "DELETE"

def AMAZON_ISSUED_CERT_TYPE : String := "AMAZON_ISSUED"

def ERR_INVALID_CERTIFICATE : String :=
  "Invalid Certificate. This custom resource is only for Amazon issued certificates."

def PENDING_VALIDATION : String := "PENDING_VALIDATION"

def NO_MATCH_NAME_ERROR : String :=
  "Unable to find any matching zones at all given provided domain name"

def NO_EXACT_MATCH_NAME_ERROR : String :=
  "Unable to find an exact matching zone given provided domain name"

def ZONE_NOT_DETERMINABLE_ERROR : String := "Unable to determine zone id"

def CERT_LOOKUP_TIMEOUT_ERROR : String := "Certificate lookup timed out"

def WAIT_BETWEEN_REQS_MS : Nat := 1000

def TIMEOUT_MARGIN_OF_SAFETY_MS : Nat := 3000

/-- `getZoneIdByName` of the ACM lambda: list zones lexicographically from
`domainName`; empty response fails with `NO_MATCH_NAME_ERROR`; a first zone
whose name neither equals `domainName` after dropping its final character
nor equals `domainName` outright fails with `NO_EXACT_MATCH_NAME_ERROR`;
otherwise the first zone's `Id` is returned with the `/hostedzone/` path
component removed. -/
def getZoneIdByName (env : Env) (domainName : String) : Except String String :=
  match env.listHostedZonesByName domainName with
  | [] => .error NO_MATCH_NAME_ERROR
  | z :: _ =>
    if ¬(jsDropLast z.Name = domainName ∨ z.Name = domainName) then
      .error NO_EXACT_MATCH_NAME_ERROR
    else
      .ok (jsReplaceFirst z.Id "/hostedzone/" "")

/-- The label walk of `getZoneIdByFQDN`: `ls` are the labels still to be
appended (deepest last in the source ordering, i.e. the reversed-split tail),
`domainName0` the candidate built so far.  Each step prepends the next label,
resolves the candidate by exact name (errors propagate), then tests NS
delegation of the original normalized FQDN inside the resolved zone. -/
def getZoneIdByFQDNGo (env : Env) (normalizedFQDN : String) :
    List String → String → Except String String
  | [], _ => .error ZONE_NOT_DETERMINABLE_ERROR
  | label :: rest, domainName0 =>
    let domainName := label ++ "." ++ domainName0
    match getZoneIdByName env domainName with
    | .error e => .error e
    | .ok zoneId =>
      if (env.testDNSAnswer zoneId normalizedFQDN "NS").length = 0 then
        .ok zoneId
      else
        getZoneIdByFQDNGo env normalizedFQDN rest domainName

/-- Trailing-separator normalization at the head of `getZoneIdByFQDN`. -/
def normalizeFQDN (fqdn : String) : String :=
  if jsEndsWithDot fqdn then jsDropLast fqdn else fqdn

/-- `getZoneIdByFQDN` of the ACM lambda. -/
def getZoneIdByFQDN (env : Env) (fqdn : String) : Except String String :=
  match (jsSplitDot (normalizeFQDN fqdn)).reverse with
  | [] => .error ZONE_NOT_DETERMINABLE_ERROR
  | tld :: rest => getZoneIdByFQDNGo env (normalizeFQDN fqdn) rest tld

/-- The candidate zone names the walk builds from label list `ls` on top of
the already built name `dn`, in walk order. -/
def candAccum : List String → String → List String
  | [], _ => []
  | l :: ls, dn => (l ++ "." ++ dn) :: candAccum ls (l ++ "." ++ dn)

/-- All candidate zone names `getZoneIdByFQDN` visits for `fqdn`, shallowest
first. -/
def fqdnCandidates (fqdn : String) : List String :=
  match (jsSplitDot (normalizeFQDN fqdn)).reverse with
  | [] => []
  | tld :: rest => candAccum rest tld

/-- At candidate `candidate` the walk resolves a zone and sees further NS
delegation of `normalizedFQDN`, so it moves on to the next candidate. -/
def walkContinues (env : Env) (normalizedFQDN candidate : String) : Prop :=
  ∃ z, getZoneIdByName env candidate = .ok z ∧
    (env.testDNSAnswer z normalizedFQDN "NS").length ≠ 0

/-- The inner pagination of one polling iteration: fetch every page while a
`NextToken` is present, concatenating the summaries; a rejected fetch aborts
the iteration.  Also counts how many fetches were issued (the empty page
sequence still corresponds to the one mandatory first fetch). -/
def runPages : List (Except String (List CertSummary)) →
    Except String (List CertSummary) × Nat
  | [] => (.ok [], 1)
  | [p] =>
    (match p with
     | .error e => .error e
     | .ok cs => .ok cs, 1)
  | p :: q :: rest =>
    match p with
    | .error e => (.error e, 1)
    | .ok cs =>
      let r := runPages (q :: rest)
      (match r.1 with
       | .error e => .error e
       | .ok cs2 => .ok (cs ++ cs2), r.2 + 1)

/-- One iteration of `lookupCertificateInternal`: page through the pending
certificates, then search the accumulated list for `domainName`.  `.ok none`
means no stop was requested (the found entry must also carry a non-empty
arn, mirroring `certFindResult && certFindResult.CertificateArn`); the
second component counts page fetches. -/
def lookupIteration (env : Env) (domainName : String) (i : Nat) :
    Except String (Option String) × Nat :=
  match runPages (env.listCertificates i) with
  | (.error e, n) => (.error e, n)
  | (.ok certs, n) =>
    (match certs.find? (fun c => c.DomainName == domainName) with
     | some c => if c.CertificateArn ≠ "" then .ok (some c.CertificateArn) else .ok none
     | none => .ok none, n)

/-- Result, total fetch count and iteration count of a bounded polling run. -/
structure LookupTrace where
  result : Except String (Option String)
  fetchCount : Nat
  iterCount : Nat
deriving DecidableEq

/-- Modelled from the spec: the bounded iteration of the external
interval-promise library (absent from the sources) per spec section 4.2 -
run the iteration body up to the budgeted number of times with
`stopOnError`, resolving early when the body requests a stop and rejecting
on a body error; a budget of zero runs the body zero times. -/
def lookupLoop (env : Env) (domainName : String) : Nat → Nat → LookupTrace
  | 0, _ => ⟨.ok none, 0, 0⟩
  | Nat.succ k, i =>
    match lookupIteration env domainName i with
    | (.ok none, n) =>
      let t := lookupLoop env domainName k (i + 1)
      ⟨t.result, n + t.fetchCount, t.iterCount + 1⟩
    | (r, n) => ⟨r, n, 1⟩

/-- The capped interval run of `lookupCertificate` with its polling trace:
the branch of the source where `timeoutMs` is truthy sets
`options.iterations = floor(timeoutMs / WAIT_BETWEEN_REQS_MS)`; iteration
numbers are 1-based. -/
def lookupCertificateInstr (env : Env) (domainName : String) (timeoutMs : Nat) :
    LookupTrace :=
  lookupLoop env domainName (timeoutMs / WAIT_BETWEEN_REQS_MS) 1

/-- The capped branch of `lookupCertificate` of the ACM lambda - the branch
taken when `timeoutMs` is truthy, where the source caps the iterations:
poll the pending-certificate listing for `domainName` within the budget;
if the loop ends without an arn, fail with `CERT_LOOKUP_TIMEOUT_ERROR`.
With a falsy (zero) `timeoutMs` the source sets no `iterations` option and
the interval runs with no cap - a run that may never settle and therefore
has no total executable value; that branch is modelled relationally by
`lookupCertificateSettles` below, and every theorem about this function
carries a truthy-timeout hypothesis. -/
def lookupCertificate (env : Env) (domainName : String) (timeoutMs : Nat) :
    Except String String :=
  match (lookupCertificateInstr env domainName timeoutMs).result with
  | .error e => .error e
  | .ok (some arn) => .ok arn
  | .ok none => .error CERT_LOOKUP_TIMEOUT_ERROR

/-- Outcome of an interval run that stopped by itself: `none` when the loop
has not stopped (every executed iteration found nothing), otherwise the
settled value of the call. -/
def loopOutcome : Except String (Option String) → Option (Except String String)
  | .error e => some (.error e)
  | .ok (some arn) => some (.ok arn)
  | .ok none => none

/-- Modelled from the spec: the full two-branch semantics of
`lookupCertificate` over the external interval library, as a settling
relation.  The source guards the iteration cap with `if (timeoutMs)`: a
truthy `timeoutMs` gives the capped run (`lookupCertificateInstr`), which
settles with its stopping outcome or times out with
`CERT_LOOKUP_TIMEOUT_ERROR`; a falsy (zero) `timeoutMs` sets no
`iterations` option, so per spec section 4.2 the loop "iterates without a
cap" and the call settles with `r` exactly when some finite number of
iterations stops the loop with outcome `r` - an uncapped run that never
stops settles with nothing (the promise never resolves). -/
def lookupCertificateSettles (env : Env) (domainName : String)
    (timeoutMs : Nat) (r : Except String String) : Prop :=
  if timeoutMs = 0 then
    ∃ k, loopOutcome (lookupLoop env domainName k 1).result = some r
  else
    match loopOutcome (lookupCertificateInstr env domainName timeoutMs).result with
    | some res => r = res
    | none => r = .error CERT_LOOKUP_TIMEOUT_ERROR

/-- The first loop of `publishCertValidationDNS`: keep the `ResourceRecord`
and `DomainName` of every validation option whose status is
`PENDING_VALIDATION`, in input order. -/
def collectPending : List ValidationOption → List ResourceRecord × List String
  | [] => ([], [])
  | v :: rest =>
    let p := collectPending rest
    if v.ValidationStatus = PENDING_VALIDATION then
      (v.ResourceRecord :: p.1, v.DomainName :: p.2)
    else p

/-- `Promise.all` over an already-ordered list of fallible calls: the first
rejection (in list order) rejects the whole batch. -/
def promiseAll {α β : Type} (f : α → Except String β) : List α → Except String (List β)
  | [] => .ok []
  | a :: rest =>
    match f a with
    | .error e => .error e
    | .ok b =>
      match promiseAll f rest with
      | .error e => .error e
      | .ok bs => .ok (b :: bs)

/-- The change built for one validation resource record. -/
def mkChange (action : String) (rr : ResourceRecord) : Change :=
  { Action := action, Name := rr.Name, ResourceRecords := [rr.Value],
    TTL := 60, RRType := rr.RRType }

/-- Object-insertion-order grouping: append the change to its zone's group,
creating the group at the end on first sight of the zone id. -/
def insertChange : List (String × List Change) → String → Change →
    List (String × List Change)
  | [], zoneId, c => [(zoneId, [c])]
  | g :: rest, zoneId, c =>
    if g.1 = zoneId then (g.1, g.2 ++ [c]) :: rest
    else g :: insertChange rest zoneId c

/-- The second loop of `publishCertValidationDNS`: walk the parallel
`zoneIds` / `resourceRecords` lists, grouping one change per record under
its zone id (the `Changes` object of the source). -/
def groupChanges (action : String) (pairs : List (String × ResourceRecord)) :
    List (String × List Change) :=
  pairs.foldl (fun acc p => insertChange acc p.1 (mkChange action p.2)) []

/-- The submission phase of `publishCertValidationDNS`: one change batch per
zone group.  For `DELETE` every rejection is caught and recorded as `none`
in that group's output position; for any other action the batch of
submissions fails as a whole on the first rejection. -/
def submitGroups (env : Env) (certificateArn action : String)
    (groups : List (String × List Change)) : Except String (List (Option String)) :=
  if action = DELETE then
    .ok (groups.map fun g =>
      match env.changeResourceRecordSets g.1 g.2 ("Validation DNS for " ++ certificateArn) with
      | .error _ => none
      | .ok id => some id)
  else
    match promiseAll
        (fun g : String × List Change =>
          env.changeResourceRecordSets g.1 g.2 ("Validation DNS for " ++ certificateArn))
        groups with
    | .error e => .error e
    | .ok ids => .ok (ids.map some)

/-- `publishCertValidationDNS` of the ACM lambda. -/
def publishCertValidationDNS (env : Env) (certificateArn action : String) :
    Except String (List (Option String)) :=
  match env.describeCertificate certificateArn with
  | .error e => .error e
  | .ok cert =>
    if cert.CertType ≠ AMAZON_ISSUED_CERT_TYPE then .error ERR_INVALID_CERTIFICATE
    else
      let p := collectPending cert.DomainValidationOptions
      match promiseAll (getZoneIdByFQDN env) p.2 with
      | .error e => .error e
      | .ok zoneIds =>
        submitGroups env certificateArn action (groupChanges action (zoneIds.zip p.1))

/-- The lifecycle event shape the ACM lambda reads: `CertificateFQDN` from
`ResourceProperties`, the old one from `OldResourceProperties` (absent when
that object is null). -/
structure CREvent where
  RequestType : String
  CertificateFQDN : String
  OldCertificateFQDN : Option String
  PhysicalResourceId : String
deriving DecidableEq

/-- The data payload of a success response of the ACM lambda. -/
structure CRData where
  changeIds : List (Option String)
  oldChangeIds : Option (List (Option String))
  oldCertificateArn : Option String
deriving DecidableEq

/-- Outcome reported to the orchestrator: `sendSuccess` carries the physical
resource id and a nullable data payload, `sendFailure` the error message. -/
inductive CRResult where
  | success (physicalResourceId : String) (data : Option CRData)
  | failure (err : String)
deriving DecidableEq

/-- Whether a `CRResult` reports success. -/
def CRResult.isSuccess : CRResult → Bool
  | .success _ _ => true
  | .failure _ => false

/-- Modelled from the spec: `DEFAULT_PHYSICAL_RESOURCE_ID` of the external
cfn-custom-resource library (absent from the sources) - the orchestrator's
well-known sentinel for "no physical id was ever assigned".  Its concrete
spelling is irrelevant to the code, which only compares against it. -/
def DEFAULT_PHYSICAL_RESOURCE_ID : String := "NOIDPROVIDED"

/-- The try-block of `processCREvent`: `userHandlerLogic` always looks up
the certificate for the new `CertificateFQDN` first, then the method chosen
by `RequestType` runs; an unknown request type faults (indexing the method
map with `undefined`).  The lookups use the capped branch of
`lookupCertificate`, which matches the source whenever the remaining time
exceeds `TIMEOUT_MARGIN_OF_SAFETY_MS` (so that `lambdaTimeout` is truthy);
every pipeline theorem below carries that hypothesis. -/
def userHandlerRun (env : Env) (event : CREvent) : Except String (String × CRData) :=
  let lambdaTimeout := env.remainingTimeMs - TIMEOUT_MARGIN_OF_SAFETY_MS
  match lookupCertificate env event.CertificateFQDN lambdaTimeout with
  | .error e => .error e
  | .ok certificateArn =>
    if event.RequestType = "Create" then
      match publishCertValidationDNS env certificateArn UPSERT with
      | .error e => .error e
      | .ok changeIds => .ok (certificateArn, ⟨changeIds, none, none⟩)
    else if event.RequestType = "Update" then
      match event.OldCertificateFQDN with
      | none => .error "TypeError: Cannot destructure CertificateFQDN of null"
      | some oldFQDN =>
        match lookupCertificate env oldFQDN lambdaTimeout with
        | .error e => .error e
        | .ok oldCertificateArn =>
          match publishCertValidationDNS env oldCertificateArn DELETE with
          | .error e => .error e
          | .ok oldChangeIds =>
            match publishCertValidationDNS env certificateArn UPSERT with
            | .error e => .error e
            | .ok changeIds =>
              .ok (certificateArn,
                ⟨changeIds, some oldChangeIds, some event.PhysicalResourceId⟩)
    else if event.RequestType = "Delete" then
      match publishCertValidationDNS env certificateArn DELETE with
      | .error e => .error e
      | .ok changeIds => .ok (event.PhysicalResourceId, ⟨changeIds, none, none⟩)
    else
      .error "TypeError: selected method is not a function"

/-- `processCREvent` of the ACM lambda: report the try-block result as
success, except that a failing Delete event whose physical id is the
orchestrator's unassigned sentinel is converted into a success with a null
data payload. -/
def processCREvent (env : Env) (event : CREvent) : CRResult :=
  match userHandlerRun env event with
  | .ok r => .success r.1 (some r.2)
  | .error err =>
    if event.RequestType = "Delete" ∧
        event.PhysicalResourceId = DEFAULT_PHYSICAL_RESOURCE_ID then
      .success event.PhysicalResourceId none
    else
      .failure err

end Acm

namespace Ses

/-- One entry of a Route53 `listHostedZonesByName` response. -/
structure HostedZone where
  Id : String
  Name : String
deriving DecidableEq

/-- The part of a Route53 `getHostedZone` response the code reads. -/
structure HostedZoneInfo where
  Name : String
deriving DecidableEq

/-- One change of the SES verification change batch (`Type` rendered as
`RRType`); the TXT change carries the multi-value answer marker and a
region-scoped set identifier, the DKIM CNAME changes do not. -/
structure Change where
  Action : String
  Name : String
  ResourceRecords : List String
  TTL : Nat
  RRType : String
  MultiValueAnswer : Option Bool
  SetIdentifier : Option String
deriving DecidableEq

/-- Providers for the SES verify-domain lambda, plus the process environment
region used in the TXT set identifier. -/
structure Env where
  listHostedZonesByName : String → List HostedZone
  getHostedZone : String → Except String HostedZoneInfo
  verifyDomainIdentity : String → Except String String
  verifyDomainDkim : String → Except String (List String)
  deleteIdentity : String → Except String Unit
  changeResourceRecordSets : String → List Change → String → Except String String
  awsRegion : String

/-- A provider call issued by the SES lambda, in issuing order. -/
inductive ProviderCall where
  | listHostedZonesByName (name : String)
  | getHostedZone (id : String)
  | verifyDomainIdentity (domain : String)
  | verifyDomainDkim (domain : String)
  | deleteIdentity (identity : String)
  | changeResourceRecordSets (zoneId : String) (changes : List Change)
deriving DecidableEq

def UPSERT : String := "UPSERT"

def DELETE : String := "DELETE"

def NO_MATCH_NAME_ERROR : String :=
  "Unable to find any matching zones at all given provided domain name"

def NO_EXACT_MATCH_NAME_ERROR : String :=
  "Unable to find an exact matching zone given provided domain name"

def SES_CHANGE_COMMENT : String :=
  "Records to verify domain ownership and DKIM for SES send/receive"

/-- `getZoneIdByName` of the SES lambda (textually the same routine as the
ACM one, against this lambda's provider environment). -/
def getZoneIdByName (env : Env) (domainName : String) : Except String String :=
  match env.listHostedZonesByName domainName with
  | [] => .error NO_MATCH_NAME_ERROR
  | z :: _ =>
    if ¬(jsDropLast z.Name = domainName ∨ z.Name = domainName) then
      .error NO_EXACT_MATCH_NAME_ERROR
    else
      .ok (jsReplaceFirst z.Id "/hostedzone/" "")

/-- The input-classification step of `verifyDomain`: an input whose
dot-split has length one is a hosted zone id (the domain name is then
fetched with `getHostedZone`), otherwise it is a zone name (the id is then
resolved with `getZoneIdByName`).  Returns the resolved
`(hostedZoneId, domainName)` pair and the single provider call issued. -/
def resolveZone (env : Env) (hostedZoneIdOrName : String) :
    Except String (String × String) × List ProviderCall :=
  if (jsSplitDot hostedZoneIdOrName).length = 1 then
    (match env.getHostedZone hostedZoneIdOrName with
     | .error e => .error e
     | .ok info => .ok (hostedZoneIdOrName, info.Name),
     [.getHostedZone hostedZoneIdOrName])
  else
    (match getZoneIdByName env hostedZoneIdOrName with
     | .error e => .error e
     | .ok zoneId => .ok (zoneId, hostedZoneIdOrName),
     [.listHostedZonesByName hostedZoneIdOrName])

/-- The `_amazonses` ownership TXT change: quoted token value, multi-value
answer, region-scoped set identifier. -/
def mkVerifyChange (action region domainName token : String) : Change :=
  { Action := action, Name := "_amazonses" ++ "." ++ domainName,
    ResourceRecords := ["\"" ++ token ++ "\""], TTL := 60, RRType := "TXT",
    MultiValueAnswer := some true,
    SetIdentifier := some ("cfn-ses-verifyDomain-" ++ region) }

/-- One DKIM CNAME change for one signing token. -/
def mkDkimChange (action domainName token : String) : Change :=
  { Action := action, Name := token ++ "." ++ "_domainkey" ++ "." ++ domainName,
    ResourceRecords := [token ++ "." ++ "dkim.amazonses.com"], TTL := 60,
    RRType := "CNAME", MultiValueAnswer := none, SetIdentifier := none }

/-- Result of a successful `verifyDomain` call. -/
structure VerifyResult where
  domainName : String
  changeId : String
deriving DecidableEq

/-- `verifyDomain` of the SES lambda, with the ordered provider-call trace:
resolve the zone, issue the identity-verification and DKIM requests
together (both are issued before either result is read), on `DELETE`
revoke the SES identity, then submit the single change batch. -/
def verifyDomain (env : Env) (hostedZoneIdOrName action : String) :
    Except String VerifyResult × List ProviderCall :=
  match resolveZone env hostedZoneIdOrName with
  | (.error e, tr) => (.error e, tr)
  | (.ok zd, tr0) =>
    let hostedZoneId := zd.1
    let domainName := zd.2
    let tr1 := tr0 ++ [.verifyDomainIdentity domainName, .verifyDomainDkim domainName]
    match env.verifyDomainIdentity domainName with
    | .error e => (.error e, tr1)
    | .ok verificationToken =>
      match env.verifyDomainDkim domainName with
      | .error e => (.error e, tr1)
      | .ok dkimTokens =>
        let delTrace := if action = DELETE then [ProviderCall.deleteIdentity domainName] else []
        let tr2 := tr1 ++ delTrace
        let delResult : Except String Unit :=
          if action = DELETE then env.deleteIdentity domainName else .ok ()
        match delResult with
        | .error e => (.error e, tr2)
        | .ok _ =>
          let r53Changes :=
            mkVerifyChange action env.awsRegion domainName verificationToken ::
              dkimTokens.map (mkDkimChange action domainName)
          let tr3 := tr2 ++ [.changeResourceRecordSets hostedZoneId r53Changes]
          match env.changeResourceRecordSets hostedZoneId r53Changes SES_CHANGE_COMMENT with
          | .error e => (.error e, tr3)
          | .ok id => (.ok ⟨domainName, id⟩, tr3)

end Ses

/-- Whether an optional trace entry is a change-batch submission. -/
def isChangeSubmission : Option Ses.ProviderCall → Bool
  | some (Ses.ProviderCall.changeResourceRecordSets _ _) => true
  | _ => false

/-- Concrete environment exercising C1: no zone exists at the first
candidate `b.com`, while the deeper candidate `a.b.com` is hosted and shows
no further delegation. -/
def envC1 : Acm.Env :=
  { listHostedZonesByName := fun d =>
      if d = "a.b.com" then [⟨"/hostedzone/Z2", "a.b.com."⟩] else []
  , testDNSAnswer := fun _ _ _ => []
  , changeResourceRecordSets := fun _ _ _ => .error "unused"
  , describeCertificate := fun _ => .error "unused"
  , listCertificates := fun _ => []
  , remainingTimeMs := 0 }

/-- Concrete environment for the C1 witness: the first candidate `b.com`
resolves but shows delegation, the second candidate has no zones at all. -/
def envC1w : Acm.Env :=
  { listHostedZonesByName := fun d =>
      if d = "b.com" then [⟨"/hostedzone/Z1", "b.com."⟩] else []
  , testDNSAnswer := fun z _ _ => if z = "Z1" then ["ns1.example.net"] else []
  , changeResourceRecordSets := fun _ _ _ => .error "unused"
  , describeCertificate := fun _ => .error "unused"
  , listCertificates := fun _ => []
  , remainingTimeMs := 0 }

/-- Concrete environment exercising C2: `b.com` is hosted under exactly the
queried spelling, but the zone still delegates the name further down. -/
def envC2cx : Acm.Env :=
  { listHostedZonesByName := fun d =>
      if d = "b.com" then [⟨"/hostedzone/Z1", "b.com"⟩] else []
  , testDNSAnswer := fun z _ _ => if z = "Z1" then ["ns1.example.net"] else []
  , changeResourceRecordSets := fun _ _ _ => .error "unused"
  , describeCertificate := fun _ => .error "unused"
  , listCertificates := fun _ => []
  , remainingTimeMs := 0 }

/-- Concrete environment for the C2 witness: `b.com` is hosted and shows no
further delegation. -/
def envC2w : Acm.Env :=
  { listHostedZonesByName := fun d =>
      if d = "b.com" then [⟨"/hostedzone/Z1", "b.com."⟩] else []
  , testDNSAnswer := fun _ _ _ => []
  , changeResourceRecordSets := fun _ _ _ => .error "unused"
  , describeCertificate := fun _ => .error "unused"
  , listCertificates := fun _ => []
  , remainingTimeMs := 0 }

/-- Certificate served by `envC3`: one pending validation option. -/
def certC3 : Acm.Certificate :=
  ⟨"AMAZON_ISSUED",
   [⟨"test.b.com", "PENDING_VALIDATION",
     ⟨"_x1.test.b.com", "CNAME", "_v1.acm-validations.aws"⟩⟩]⟩

/-- Concrete environment exercising C3: every provider call of the Delete
flow succeeds. -/
def envC3 : Acm.Env :=
  { listHostedZonesByName := fun d =>
      if d = "b.com" then [⟨"/hostedzone/Z1", "b.com."⟩] else []
  , testDNSAnswer := fun _ _ _ => []
  , changeResourceRecordSets := fun _ _ _ => .ok "CHG1"
  , describeCertificate := fun a =>
      if a = "arn-1" then .ok certC3 else .error "no such certificate"
  , listCertificates := fun i =>
      if i = 1 then [.ok [⟨"arn-1", "test.b.com"⟩]] else []
  , remainingTimeMs := 10000 }

/-- A Delete lifecycle event carrying the unassigned-sentinel physical id. -/
def eventC3 : Acm.CREvent :=
  ⟨"Delete", "test.b.com", none, Acm.DEFAULT_PHYSICAL_RESOURCE_ID⟩

/-- Certificate served by `envC4`: two pending validation options living in
two different hosted zones. -/
def certC4 : Acm.Certificate :=
  ⟨"AMAZON_ISSUED",
   [⟨"a.z1.com", "PENDING_VALIDATION",
     ⟨"_r1.a.z1.com", "CNAME", "_v1.acm-validations.aws"⟩⟩,
    ⟨"b.z2.com", "PENDING_VALIDATION",
     ⟨"_r2.b.z2.com", "CNAME", "_v2.acm-validations.aws"⟩⟩]⟩

/-- Concrete environment exercising C4: submissions into zone `Z2` fail,
submissions into zone `Z1` succeed. -/
def envC4 : Acm.Env :=
  { listHostedZonesByName := fun d =>
      if d = "z1.com" then [⟨"/hostedzone/Z1", "z1.com."⟩]
      else if d = "z2.com" then [⟨"/hostedzone/Z2", "z2.com."⟩]
      else []
  , testDNSAnswer := fun _ _ _ => []
  , changeResourceRecordSets := fun z _ _ =>
      if z = "Z2" then .error "Unable to process change" else .ok "CID1"
  , describeCertificate := fun a =>
      if a = "arn-4" then .ok certC4 else .error "no such certificate"
  , listCertificates := fun _ => []
  , remainingTimeMs := 0 }

/-- Concrete environment exercising C5: the provider's nearest match for
`foo.com` is `foo.comX`, which is not `foo.com` with a separator appended,
yet drops to `foo.com` after removing one character. -/
def envC5cx : Acm.Env :=
  { listHostedZonesByName := fun d =>
      if d = "foo.com" then [⟨"/hostedzone/Z1", "foo.comX"⟩] else []
  , testDNSAnswer := fun _ _ _ => []
  , changeResourceRecordSets := fun _ _ _ => .error "unused"
  , describeCertificate := fun _ => .error "unused"
  , listCertificates := fun _ => []
  , remainingTimeMs := 0 }

/-- Concrete environment for the C5 witness: an exact match carrying the
provider's trailing separator. -/
def envC5w : Acm.Env :=
  { listHostedZonesByName := fun d =>
      if d = "foo.com" then [⟨"/hostedzone/Z9", "foo.com."⟩] else []
  , testDNSAnswer := fun _ _ _ => []
  , changeResourceRecordSets := fun _ _ _ => .error "unused"
  , describeCertificate := fun _ => .error "unused"
  , listCertificates := fun _ => []
  , remainingTimeMs := 0 }

/-- Concrete environment exercising C6: the pending-certificate listing is
always empty. -/
def envC6 : Acm.Env :=
  { listHostedZonesByName := fun _ => []
  , testDNSAnswer := fun _ _ _ => []
  , changeResourceRecordSets := fun _ _ _ => .error "unused"
  , describeCertificate := fun _ => .error "unused"
  , listCertificates := fun _ => []
  , remainingTimeMs := 0 }

/-- Concrete environment for the uncapped-run demonstration: the wanted
certificate is on the very first page of the very first iteration. -/
def envC6u : Acm.Env :=
  { listHostedZonesByName := fun _ => []
  , testDNSAnswer := fun _ _ _ => []
  , changeResourceRecordSets := fun _ _ _ => .error "unused"
  , describeCertificate := fun _ => .error "unused"
  , listCertificates := fun i => if i = 1 then [.ok [⟨"arn-u", "u.com"⟩]] else []
  , remainingTimeMs := 0 }

/-- Concrete environment exercising C7: the provider answers every query
with a zone whose name lacks the trailing separator. -/
def envC7cx : Acm.Env :=
  { listHostedZonesByName := fun _ => [⟨"/hostedzone/Z1", "foo.com"⟩]
  , testDNSAnswer := fun _ _ _ => []
  , changeResourceRecordSets := fun _ _ _ => .error "unused"
  , describeCertificate := fun _ => .error "unused"
  , listCertificates := fun _ => []
  , remainingTimeMs := 0 }

/-- Concrete environment for the C7 witness: a well-formed provider that
ignores a trailing separator on the query and returns separator-terminated
zone names. -/
def envC7w : Acm.Env :=
  { listHostedZonesByName := fun d =>
      if d = "foo.com" ∨ d = "foo.com." then [⟨"/hostedzone/Z1", "foo.com."⟩] else []
  , testDNSAnswer := fun _ _ _ => []
  , changeResourceRecordSets := fun _ _ _ => .error "unused"
  , describeCertificate := fun _ => .error "unused"
  , listCertificates := fun _ => []
  , remainingTimeMs := 0 }

/-- Certificate served by `envC10`: its only validation option is already
validated. -/
def certC10 : Acm.Certificate :=
  ⟨"AMAZON_ISSUED",
   [⟨"done.z1.com", "SUCCESS",
     ⟨"_r9.done.z1.com", "CNAME", "_v9.acm-validations.aws"⟩⟩]⟩

/-- Concrete environment exercising C10: an Amazon-issued certificate with
no pending validation options. -/
def envC10 : Acm.Env :=
  { listHostedZonesByName := fun _ => []
  , testDNSAnswer := fun _ _ _ => []
  , changeResourceRecordSets := fun _ _ _ => .error "must not be called"
  , describeCertificate := fun a =>
      if a = "arn-10" then .ok certC10 else .error "no such certificate"
  , listCertificates := fun _ => []
  , remainingTimeMs := 0 }

/-- Concrete environment exercising C8: a fully successful SES Delete flow
for the zone name `dom.com`. -/
def envC8 : Ses.Env :=
  { listHostedZonesByName := fun d =>
      if d = "dom.com" then [⟨"/hostedzone/ZS1", "dom.com."⟩] else []
  , getHostedZone := fun i => if i = "ZS1" then .ok ⟨"dom.com."⟩ else .error "no such zone"
  , verifyDomainIdentity := fun _ => .ok "VTOK"
  , verifyDomainDkim := fun _ => .ok ["dk1", "dk2", "dk3"]
  , deleteIdentity := fun _ => .ok ()
  , changeResourceRecordSets := fun _ _ _ => .ok "SESCHG"
  , awsRegion := "us-east-1" }

/-- Concrete environment exercising C9: one zone findable by name, one zone
findable by id. -/
def envC9 : Ses.Env :=
  { listHostedZonesByName := fun d =>
      if d = "zone9.com" then [⟨"/hostedzone/Z91", "zone9.com."⟩] else []
  , getHostedZone := fun i => if i = "Z92" then .ok ⟨"id9.com."⟩ else .error "no such zone"
  , verifyDomainIdentity := fun _ => .ok "V9"
  , verifyDomainDkim := fun _ => .ok ["d9"]
  , deleteIdentity := fun _ => .ok ()
  , changeResourceRecordSets := fun _ _ _ => .ok "C9CHG"
  , awsRegion := "r9" }

/-! ## Helper lemmas -/

theorem string_data_mk (l : List Char) : (String.mk l).data = l := rfl

theorem string_eq_of_data_eq {s t : String} (h : s.data = t.data) : s = t := by
  have h2 : String.mk s.data = String.mk t.data := congrArg String.mk h
  exact h2

theorem append_dot_data (m : String) : (m ++ ".").data = m.data ++ ['.'] := by
  simp [String.data_append]

theorem jsDropLast_append_dot (m : String) : jsDropLast (m ++ ".") = m := by
  unfold jsDropLast
  rw [append_dot_data, List.dropLast_concat]

theorem hasTrailingSep_append_dot (m : String) : hasTrailingSep (m ++ ".") := by
  unfold hasTrailingSep
  rw [append_dot_data, List.getLast?_concat]

theorem append_dot_cancel {m d : String} (h : m ++ "." = d ++ ".") : m = d := by
  have h2 : (m ++ ".").data = (d ++ ".").data := congrArg String.data h
  rw [append_dot_data, append_dot_data] at h2
  exact string_eq_of_data_eq (List.append_cancel_right h2)

theorem splitOnCharAux_length (c : Char) :
    ∀ (l acc : List Char), (splitOnCharAux c l acc).length = l.count c + 1 := by
  intro l
  induction l with
  | nil => intro acc; simp [splitOnCharAux]
  | cons a rest ih =>
    intro acc
    by_cases hac : a = c
    · subst hac
      simp [splitOnCharAux, ih, List.count_cons_self, Nat.add_comm]
    · simp [splitOnCharAux, hac, ih, List.count_cons_of_ne (Ne.symm hac)]

theorem jsSplitDot_length_one_iff (s : String) :
    (jsSplitDot s).length = 1 ↔ ¬ '.' ∈ s.data := by
  unfold jsSplitDot
  rw [splitOnCharAux_length]
  constructor
  · intro h hmem
    have hc := List.count_pos_iff.mpr hmem
    omega
  · intro h
    have hc : s.data.count '.' = 0 := List.count_eq_zero.mpr h
    omega

theorem candAccum_cons (l : String) (ls : List String) (dn : String) :
    Acm.candAccum (l :: ls) dn =
      (l ++ "." ++ dn) :: Acm.candAccum ls (l ++ "." ++ dn) := rfl

theorem go_error_propagates (env : Acm.Env) (nfqdn : String) :
    ∀ (ls : List String) (dn : String) (pre : List String) (c : String)
      (post : List String) (e : String),
      Acm.candAccum ls dn = pre ++ c :: post →
      (∀ c2 ∈ pre, Acm.walkContinues env nfqdn c2) →
      Acm.getZoneIdByName env c = .error e →
      Acm.getZoneIdByFQDNGo env nfqdn ls dn = .error e := by
  intro ls
  induction ls with
  | nil =>
    intro dn pre c post e hacc _ _
    simp [Acm.candAccum] at hacc
  | cons l ls ih =>
    intro dn pre c post e hacc hcont herr
    rw [candAccum_cons] at hacc
    cases pre with
    | nil =>
      rw [List.nil_append] at hacc
      injection hacc with h1 h2
      simp only [Acm.getZoneIdByFQDNGo]
      rw [h1, herr]
    | cons p pre2 =>
      rw [List.cons_append] at hacc
      injection hacc with h1 h2
      obtain ⟨z, hz, ht⟩ := hcont p (List.mem_cons_self p pre2)
      simp only [Acm.getZoneIdByFQDNGo]
      rw [← h1] at hz
      rw [hz]
      simp only [if_neg ht]
      exact ih (l ++ "." ++ dn) pre2 c post e h2
        (fun c2 hc2 => hcont c2 (List.mem_cons_of_mem p hc2)) herr

theorem go_exhausts (env : Acm.Env) (nfqdn : String) :
    ∀ (ls : List String) (dn : String),
      (∀ c ∈ Acm.candAccum ls dn, Acm.walkContinues env nfqdn c) →
      Acm.getZoneIdByFQDNGo env nfqdn ls dn = .error Acm.ZONE_NOT_DETERMINABLE_ERROR := by
  intro ls
  induction ls with
  | nil => intro dn _; rfl
  | cons l ls ih =>
    intro dn hcont
    obtain ⟨z, hz, ht⟩ :=
      hcont (l ++ "." ++ dn) (by rw [candAccum_cons]; exact List.mem_cons_self _ _)
    simp only [Acm.getZoneIdByFQDNGo]
    rw [hz]
    simp only [if_neg ht]
    exact ih (l ++ "." ++ dn)
      (fun c hc => hcont c (by rw [candAccum_cons]; exact List.mem_cons_of_mem _ hc))

theorem go_last_exact (env : Acm.Env) (nfqdn z : String) :
    ∀ (ls : List String) (dn : String),
      (∀ c ∈ (Acm.candAccum ls dn).dropLast, Acm.walkContinues env nfqdn c) →
      (Acm.candAccum ls dn).getLast? = some nfqdn →
      Acm.getZoneIdByName env nfqdn = .ok z →
      Acm.getZoneIdByFQDNGo env nfqdn ls dn =
        (if (env.testDNSAnswer z nfqdn "NS").length = 0 then .ok z
         else .error Acm.ZONE_NOT_DETERMINABLE_ERROR) := by
  intro ls
  induction ls with
  | nil =>
    intro dn _ hlast _
    simp [Acm.candAccum] at hlast
  | cons l ls ih =>
    intro dn hdrop hlast hok
    cases ls with
    | nil =>
      rw [candAccum_cons] at hlast
      simp only [Acm.candAccum, List.getLast?_singleton, Option.some_inj] at hlast
      simp only [Acm.getZoneIdByFQDNGo]
      rw [hlast, hok]
    | cons l2 ls2 =>
      have hne : Acm.candAccum (l2 :: ls2) (l ++ "." ++ dn) ≠ [] := by
        rw [candAccum_cons]; exact List.cons_ne_nil _ _
      have hmem : (l ++ "." ++ dn) ∈ (Acm.candAccum (l :: l2 :: ls2) dn).dropLast := by
        rw [candAccum_cons]
        rw [List.dropLast_cons_of_ne_nil hne]
        exact List.mem_cons_self _ _
      obtain ⟨z1, hz1, ht1⟩ := hdrop (l ++ "." ++ dn) hmem
      simp only [Acm.getZoneIdByFQDNGo]
      rw [hz1]
      simp only [if_neg ht1]
      apply ih (l ++ "." ++ dn)
      · intro c hc
        apply hdrop
        rw [candAccum_cons, List.dropLast_cons_of_ne_nil hne]
        exact List.mem_cons_of_mem _ hc
      · rw [candAccum_cons, candAccum_cons] at hlast
        rw [List.getLast?_cons_cons] at hlast
        rw [candAccum_cons]
        exact hlast
      · exact hok

theorem promiseAll_error_of_mem {α β : Type} (f : α → Except String β) :
    ∀ (l : List α) (a : α), a ∈ l → (∃ e, f a = .error e) →
      ∃ e2, Acm.promiseAll f l = .error e2 := by
  intro l
  induction l with
  | nil => intro a ha _; exact absurd ha (List.not_mem_nil a)
  | cons b t ih =>
    intro a ha ⟨e, he⟩
    cases hfb : f b with
    | error eb => exact ⟨eb, by simp only [Acm.promiseAll, hfb]⟩
    | ok vb =>
      rcases List.mem_cons.mp ha with rfl | hat
      · rw [hfb] at he; exact absurd he (by simp)
      · obtain ⟨e2, he2⟩ := ih a hat ⟨e, he⟩
        exact ⟨e2, by simp only [Acm.promiseAll, hfb, he2]⟩

theorem collectPending_none (opts : List Acm.ValidationOption)
    (h : ∀ v ∈ opts, v.ValidationStatus ≠ Acm.PENDING_VALIDATION) :
    Acm.collectPending opts = ([], []) := by
  induction opts with
  | nil => rfl
  | cons v rest ih =>
    have hv := h v (List.mem_cons_self v rest)
    simp only [Acm.collectPending, if_neg hv]
    exact ih (fun w hw => h w (List.mem_cons_of_mem v hw))

theorem collectPending_filter (opts : List Acm.ValidationOption) :
    Acm.collectPending opts =
      Acm.collectPending
        (opts.filter fun v => v.ValidationStatus == Acm.PENDING_VALIDATION) := by
  induction opts with
  | nil => rfl
  | cons v rest ih =>
    by_cases hv : v.ValidationStatus = Acm.PENDING_VALIDATION
    · simp [Acm.collectPending, hv, List.filter_cons, ih]
    · simp [Acm.collectPending, hv, List.filter_cons, ih]

theorem lookupLoop_iterCount_le (env : Acm.Env) (d : String) :
    ∀ (k i : Nat), (Acm.lookupLoop env d k i).iterCount ≤ k := by
  intro k
  induction k with
  | zero => intro i; exact Nat.le_refl 0
  | succ k ih =>
    intro i
    simp only [Acm.lookupLoop]
    split
    · exact Nat.succ_le_succ (ih (i + 1))
    · exact Nat.succ_le_succ (Nat.zero_le k)

theorem lookupLoop_result_none (env : Acm.Env) (d : String) :
    ∀ (k i : Nat),
      (∀ j, i ≤ j → j < i + k → (Acm.lookupIteration env d j).1 = .ok none) →
      (Acm.lookupLoop env d k i).result = .ok none := by
  intro k
  induction k with
  | zero => intro i _; rfl
  | succ k ih =>
    intro i h
    have hi : (Acm.lookupIteration env d i).1 = .ok none :=
      h i (Nat.le_refl i) (Nat.lt_add_of_pos_right (Nat.succ_pos k))
    simp only [Acm.lookupLoop]
    rcases hit : Acm.lookupIteration env d i with ⟨r, n⟩
    rw [hit] at hi
    simp only at hi
    subst hi
    simp only
    exact ih (i + 1) (fun j hj1 hj2 => h j (Nat.le_of_succ_le hj1) (by omega))

/-! ## Claim theorems -/

/-- C5 (amended): `getZoneIdByName` fails with `NO_MATCH_NAME_ERROR` exactly
when the provider listing is empty; it fails with `NO_EXACT_MATCH_NAME_ERROR`
exactly when the first listed zone's name neither equals the query after
dropping the name's final character nor equals the query outright (for
provider names that end in the separator this is the single-trailing-
separator condition of the claim, but the code accepts any final character);
otherwise it returns the first zone's id with the first occurrence of the
`/hostedzone/` path component removed. -/
theorem c5_theorem (env : Acm.Env) (d : String) :
    (Acm.getZoneIdByName env d = .error Acm.NO_MATCH_NAME_ERROR ↔
      env.listHostedZonesByName d = [])
    ∧ (Acm.getZoneIdByName env d = .error Acm.NO_EXACT_MATCH_NAME_ERROR ↔
      ∃ z zs, env.listHostedZonesByName d = z :: zs ∧
        ¬(jsDropLast z.Name = d ∨ z.Name = d))
    ∧ (∀ z zs, env.listHostedZonesByName d = z :: zs →
        (jsDropLast z.Name = d ∨ z.Name = d) →
        Acm.getZoneIdByName env d = .ok (jsReplaceFirst z.Id "/hostedzone/" "")) := by
  have hne : Acm.NO_MATCH_NAME_ERROR ≠ Acm.NO_EXACT_MATCH_NAME_ERROR := by decide
  unfold Acm.getZoneIdByName
  cases hlist : env.listHostedZonesByName d with
  | nil =>
    refine ⟨by simp, ?_, ?_⟩
    · constructor
      · intro h; injection h with h2; exact absurd h2 hne
      · rintro ⟨z, zs, h, -⟩; cases h
    · intro z zs h; cases h
  | cons zh zt =>
    dsimp only
    by_cases hC : jsDropLast zh.Name = d ∨ zh.Name = d
    · refine ⟨?_, ?_, ?_⟩
      · rw [if_neg (not_not_intro hC)]; simp
      · rw [if_neg (not_not_intro hC)]
        simp only [iff_iff_implies_and_implies]
        constructor
        · intro h; cases h
        · rintro ⟨z, zs, h, hneg⟩
          injection h with h1 h2
          subst h1
          exact absurd hC hneg
      · intro z zs h hzC
        injection h with h1 h2
        subst h1
        rw [if_neg (not_not_intro hC)]
    · refine ⟨?_, ?_, ?_⟩
      · rw [if_pos hC]; simp [Ne.symm hne]
      · rw [if_pos hC]
        constructor
        · intro _; exact ⟨zh, zt, rfl, hC⟩
        · intro _; rfl
      · intro z zs h hzC
        injection h with h1 h2
        subst h1
        exact absurd hzC hC

/-- C7 (amended): for a query `d` carrying no trailing separator, against a
provider that ignores a trailing separator on the query and whose listed
zone names carry exactly one trailing separator, `getZoneIdByName` gives
the same result on `d ++ "."` as on `d`. -/
theorem c7_theorem (env : Acm.Env) (d : String)
    (hd : ¬ hasTrailingSep d)
    (hsame : env.listHostedZonesByName (d ++ ".") = env.listHostedZonesByName d)
    (hnames : ∀ z zs, env.listHostedZonesByName d = z :: zs →
      ∃ m, z.Name = m ++ "." ∧ ¬ hasTrailingSep m) :
    Acm.getZoneIdByName env (d ++ ".") = Acm.getZoneIdByName env d := by
  unfold Acm.getZoneIdByName
  rw [hsame]
  cases hlist : env.listHostedZonesByName d with
  | nil => rfl
  | cons zh zt =>
    dsimp only
    obtain ⟨m, hm, hmns⟩ := hnames zh zt hlist
    have hdrop : jsDropLast zh.Name = m := by rw [hm]; exact jsDropLast_append_dot m
    by_cases hmd : m = d
    · have c2 : jsDropLast zh.Name = d ∨ zh.Name = d := Or.inl (hdrop.trans hmd)
      have c1 : jsDropLast zh.Name = d ++ "." ∨ zh.Name = d ++ "." := by
        right; rw [hm, hmd]
      rw [if_neg (not_not_intro c1), if_neg (not_not_intro c2)]
    · have c2 : ¬(jsDropLast zh.Name = d ∨ zh.Name = d) := by
        rintro (h | h)
        · exact hmd (hdrop.symm.trans h)
        · refine hd ?_
          rw [← h, hm]
          exact hasTrailingSep_append_dot m
      have c1 : ¬(jsDropLast zh.Name = d ++ "." ∨ zh.Name = d ++ ".") := by
        rintro (h | h)
        · refine hmns ?_
          rw [hdrop] at h
          rw [h]
          exact hasTrailingSep_append_dot d
        · rw [hm] at h
          exact hmd (append_dot_cancel h)
      rw [if_pos c1, if_pos c2]

/-- C1 (amended): during the label walk any failure of the exact-name
lookup - `NO_MATCH_NAME_ERROR` included - propagates out of
`getZoneIdByFQDN` and aborts the walk (first conjunct, for the first
failing candidate); `ZONE_NOT_DETERMINABLE_ERROR` is raised exactly when
every candidate resolves and shows further delegation, so that the walk
exhausts all labels (second conjunct). -/
theorem c1_theorem (env : Acm.Env) (fqdn : String) :
    (∀ (pre : List String) (c : String) (post : List String) (e : String),
        Acm.fqdnCandidates fqdn = pre ++ c :: post →
        (∀ c2 ∈ pre, Acm.walkContinues env (Acm.normalizeFQDN fqdn) c2) →
        Acm.getZoneIdByName env c = .error e →
        Acm.getZoneIdByFQDN env fqdn = .error e)
    ∧ ((∀ c ∈ Acm.fqdnCandidates fqdn,
          Acm.walkContinues env (Acm.normalizeFQDN fqdn) c) →
        Acm.getZoneIdByFQDN env fqdn = .error Acm.ZONE_NOT_DETERMINABLE_ERROR) := by
  unfold Acm.fqdnCandidates Acm.getZoneIdByFQDN
  cases hrev : (jsSplitDot (Acm.normalizeFQDN fqdn)).reverse with
  | nil =>
    refine ⟨?_, fun _ => rfl⟩
    intro pre c post e hacc _ _
    exact absurd hacc (by simp)
  | cons tld rest =>
    refine ⟨?_, ?_⟩
    · intro pre c post e hacc hcont herr
      exact go_error_propagates env _ rest tld pre c post e hacc hcont herr
    · intro hcont
      exact go_exhausts env _ rest tld hcont

/-- C2 (amended): when every candidate before the last one resolves and
shows delegation, the last candidate is the normalized fqdn itself and its
exact-name lookup resolves to zone `z`, then `getZoneIdByFQDN` still
consults the NS-delegation test at that exact-name candidate: it returns
`z` when the test reports no records and fails with
`ZONE_NOT_DETERMINABLE_ERROR` when the test reports delegation. -/
theorem c2_theorem (env : Acm.Env) (fqdn z : String)
    (h1 : ∀ c ∈ (Acm.fqdnCandidates fqdn).dropLast,
        Acm.walkContinues env (Acm.normalizeFQDN fqdn) c)
    (h2 : (Acm.fqdnCandidates fqdn).getLast? = some (Acm.normalizeFQDN fqdn))
    (h3 : Acm.getZoneIdByName env (Acm.normalizeFQDN fqdn) = .ok z) :
    Acm.getZoneIdByFQDN env fqdn =
      (if (env.testDNSAnswer z (Acm.normalizeFQDN fqdn) "NS").length = 0 then .ok z
       else .error Acm.ZONE_NOT_DETERMINABLE_ERROR) := by
  unfold Acm.fqdnCandidates at h1 h2
  unfold Acm.getZoneIdByFQDN
  cases hrev : (jsSplitDot (Acm.normalizeFQDN fqdn)).reverse with
  | nil =>
    rw [hrev] at h2
    cases h2
  | cons tld rest =>
    rw [hrev] at h1 h2
    exact go_last_exact env _ z rest tld h1 h2 h3

/-- C5 counterexample: querying `foo.com` when the provider's nearest match
is the zone `foo.comX` - a name that is neither `foo.com` nor
`foo.com` with a trailing separator - still succeeds with the zone's id,
because the code only drops the name's final character before comparing;
the claim requires `NO_EXACT_MATCH_NAME_ERROR` here. -/
theorem c5_counterexample :
    envC5cx.listHostedZonesByName "foo.com" = [⟨"/hostedzone/Z1", "foo.comX"⟩]
    ∧ ("foo.comX" : String) ≠ "foo.com"
    ∧ ("foo.comX" : String) ≠ "foo.com" ++ "."
    ∧ Acm.getZoneIdByName envC5cx "foo.com" = .ok "Z1" := by decide

/-- C5 witness: the contract theorem applied to a concrete provider with an
exact separator-terminated match. -/
theorem c5_witness : Acm.getZoneIdByName envC5w "foo.com" = .ok "Z9" := by
  have h := (c5_theorem envC5w "foo.com").2.2 ⟨"/hostedzone/Z9", "foo.com."⟩ []
    rfl (Or.inl (by decide))
  rw [h]
  decide

/-- C7 counterexample: a provider that answers both spellings of the query
with the same single zone whose name lacks the trailing separator; the
lookup with the trailing separator fails while the lookup without it
succeeds, refuting the unconditional equivalence. -/
theorem c7_counterexample :
    ("foo.com." : String) = "foo.com" ++ "."
    ∧ envC7cx.listHostedZonesByName "foo.com." = envC7cx.listHostedZonesByName "foo.com"
    ∧ Acm.getZoneIdByName envC7cx "foo.com." = .error Acm.NO_EXACT_MATCH_NAME_ERROR
    ∧ Acm.getZoneIdByName envC7cx "foo.com" = .ok "Z1" := by decide

/-- C7 witness: the amended theorem applied to a well-formed provider. -/
theorem c7_witness :
    Acm.getZoneIdByName envC7w ("foo.com" ++ ".") = Acm.getZoneIdByName envC7w "foo.com" := by
  refine c7_theorem envC7w "foo.com" (by decide) (by decide) ?_
  intro z zs h
  have h2 : ([⟨"/hostedzone/Z1", "foo.com."⟩] : List Acm.HostedZone) = z :: zs := h
  injection h2 with h3 h4
  refine ⟨"foo.com", ?_, by decide⟩
  rw [← h3]
  decide

/-- C1 counterexample: for `a.b.com` the first candidate `b.com` has no
zones at all, while the deeper candidate `a.b.com` is hosted and shows no
delegation; the claim promises the walk to continue and return `Z2`, but
the walk aborts with the propagated `NO_MATCH_NAME_ERROR`. -/
theorem c1_counterexample :
    envC1.listHostedZonesByName "b.com" = []
    ∧ Acm.getZoneIdByName envC1 "b.com" = .error Acm.NO_MATCH_NAME_ERROR
    ∧ Acm.getZoneIdByName envC1 "a.b.com" = .ok "Z2"
    ∧ envC1.testDNSAnswer "Z2" "a.b.com" "NS" = []
    ∧ Acm.fqdnCandidates "a.b.com" = ["b.com", "a.b.com"]
    ∧ Acm.getZoneIdByFQDN envC1 "a.b.com" = .error Acm.NO_MATCH_NAME_ERROR := by decide

/-- C1 witness: the amended theorem applied where the first candidate
resolves with delegation and the second candidate has no zones. -/
theorem c1_witness :
    Acm.getZoneIdByFQDN envC1w "a.b.com" = .error Acm.NO_MATCH_NAME_ERROR := by
  refine (c1_theorem envC1w "a.b.com").1 ["b.com"] "a.b.com" [] Acm.NO_MATCH_NAME_ERROR
    (by decide) ?_ (by decide)
  intro c2 hc2
  have h : c2 = "b.com" := by
    cases hc2 with
    | head => rfl
    | tail _ h2 => cases h2
  subst h
  exact ⟨"Z1", by decide, by decide⟩

/-- C2 counterexample: `b.com` is hosted under exactly the queried
spelling, yet the resolver does run the NS-delegation test there, sees
delegation, and ends with `ZONE_NOT_DETERMINABLE_ERROR` instead of
returning the zone's id. -/
theorem c2_counterexample :
    envC2cx.listHostedZonesByName "b.com" = [⟨"/hostedzone/Z1", "b.com"⟩]
    ∧ envC2cx.testDNSAnswer "Z1" "b.com" "NS" = ["ns1.example.net"]
    ∧ Acm.getZoneIdByFQDN envC2cx "b.com" = .error Acm.ZONE_NOT_DETERMINABLE_ERROR := by
  decide

/-- C2 witness: the amended theorem applied where the exact-name candidate
resolves and its NS test reports no records. -/
theorem c2_witness : Acm.getZoneIdByFQDN envC2w "b.com" = .ok "Z1" := by
  have hnil : (Acm.fqdnCandidates "b.com").dropLast = [] := by decide
  have h := c2_theorem envC2w "b.com" "Z1"
    (by intro c hc; rw [hnil] at hc; cases hc) (by decide) (by decide)
  rw [h]
  decide

theorem lookupCertificateSettles_capped (env : Acm.Env) (d : String) (t : Nat)
    (h0 : 0 < t) (r : Except String String) :
    Acm.lookupCertificateSettles env d t r ↔ Acm.lookupCertificate env d t = r := by
  unfold Acm.lookupCertificateSettles Acm.lookupCertificate
  rw [if_neg (Nat.pos_iff_ne_zero.mp h0)]
  cases hres : (Acm.lookupCertificateInstr env d t).result with
  | error e => simp [Acm.loopOutcome, eq_comm]
  | ok o => cases o <;> simp [Acm.loopOutcome, eq_comm]

theorem uncapped_run_settles_on_first_page :
    Acm.lookupCertificateSettles envC6u "u.com" 0 (.ok "arn-u") := by
  unfold Acm.lookupCertificateSettles
  rw [if_pos rfl]
  exact ⟨1, by decide⟩

/-- C6: with a supplied deadline - a truthy `timeoutMs`, the branch where
the source caps the iterations - the polling loop runs at most
`timeoutMs / WAIT_BETWEEN_REQS_MS` iterations (first conjunct); if every
iteration inside that budget finds no match, the call fails with
`CERT_LOOKUP_TIMEOUT_ERROR` (second conjunct); with a deadline shorter than
one interval the call fails with `CERT_LOOKUP_TIMEOUT_ERROR` after zero
page fetches, so no second page fetch is ever issued (third conjunct).
Without a supplied deadline the source runs the interval uncapped
(`lookupCertificateSettles` with `timeoutMs = 0`), so nothing here is
asserted about that branch. -/
theorem c6_theorem (env : Acm.Env) (d : String) (t : Nat) (_h0 : 0 < t) :
    ((Acm.lookupCertificateInstr env d t).iterCount ≤ t / Acm.WAIT_BETWEEN_REQS_MS)
    ∧ ((∀ j, 1 ≤ j → j ≤ t / Acm.WAIT_BETWEEN_REQS_MS →
          (Acm.lookupIteration env d j).1 = .ok none) →
        Acm.lookupCertificate env d t = .error Acm.CERT_LOOKUP_TIMEOUT_ERROR)
    ∧ (t < Acm.WAIT_BETWEEN_REQS_MS →
        Acm.lookupCertificate env d t = .error Acm.CERT_LOOKUP_TIMEOUT_ERROR
        ∧ (Acm.lookupCertificateInstr env d t).fetchCount = 0) := by
  refine ⟨lookupLoop_iterCount_le env d _ 1, ?_, ?_⟩
  · intro h
    have hres : (Acm.lookupLoop env d (t / Acm.WAIT_BETWEEN_REQS_MS) 1).result = .ok none := by
      apply lookupLoop_result_none
      intro j hj1 hj2
      exact h j hj1 (by omega)
    unfold Acm.lookupCertificate Acm.lookupCertificateInstr
    unfold Acm.lookupCertificateInstr at hres
    rw [hres]
  · intro ht
    have hz : t / Acm.WAIT_BETWEEN_REQS_MS = 0 := Nat.div_eq_of_lt ht
    constructor
    · unfold Acm.lookupCertificate Acm.lookupCertificateInstr
      rw [hz]
      rfl
    · unfold Acm.lookupCertificateInstr
      rw [hz]
      rfl

/-- C6 witness: a 500 ms deadline against a provider with an empty listing
times out with zero page fetches. -/
theorem c6_witness :
    Acm.lookupCertificate envC6 "x.com" 500 = .error Acm.CERT_LOOKUP_TIMEOUT_ERROR
    ∧ (Acm.lookupCertificateInstr envC6 "x.com" 500).fetchCount = 0 :=
  (c6_theorem envC6 "x.com" 500 (by decide)).2.2 (by decide)

/-- C4: with a valid Amazon-issued certificate and resolvable zones, a
`DELETE` publish returns one entry per zone group in group order, where a
group whose change-batch submission rejected is recorded as `none` and a
successful one carries its change id (first conjunct, an equation, so no
error is ever raised); while for `UPSERT` the failure of any single zone
group's submission makes the whole publish call fail with an error and no
partial output (second conjunct). -/
theorem c4_theorem (env : Acm.Env) (arn : String) (cert : Acm.Certificate)
    (rrs : List Acm.ResourceRecord) (dns : List String) (zoneIds : List String)
    (h1 : env.describeCertificate arn = .ok cert)
    (h2 : cert.CertType = Acm.AMAZON_ISSUED_CERT_TYPE)
    (h3 : Acm.collectPending cert.DomainValidationOptions = (rrs, dns))
    (h4 : Acm.promiseAll (Acm.getZoneIdByFQDN env) dns = .ok zoneIds) :
    (Acm.publishCertValidationDNS env arn Acm.DELETE =
      .ok ((Acm.groupChanges Acm.DELETE (zoneIds.zip rrs)).map fun g =>
        match env.changeResourceRecordSets g.1 g.2 ("Validation DNS for " ++ arn) with
        | .error _ => none
        | .ok cid => some cid))
    ∧ ((∃ g, g ∈ Acm.groupChanges Acm.UPSERT (zoneIds.zip rrs) ∧
          ∃ e, env.changeResourceRecordSets g.1 g.2 ("Validation DNS for " ++ arn) = .error e) →
        ∃ e2, Acm.publishCertValidationDNS env arn Acm.UPSERT = .error e2) := by
  have hmain : ∀ action, Acm.publishCertValidationDNS env arn action =
      Acm.submitGroups env arn action (Acm.groupChanges action (zoneIds.zip rrs)) := by
    intro action
    unfold Acm.publishCertValidationDNS
    rw [h1]
    dsimp only
    rw [if_neg (not_not_intro h2), h3]
    dsimp only
    rw [h4]
  constructor
  · rw [hmain Acm.DELETE]
    unfold Acm.submitGroups
    rw [if_pos rfl]
  · rintro ⟨g, hg, e, he⟩
    rw [hmain Acm.UPSERT]
    unfold Acm.submitGroups
    rw [if_neg (by decide : ¬(Acm.UPSERT = Acm.DELETE))]
    obtain ⟨e2, he2⟩ := promiseAll_error_of_mem
      (fun g : String × List Acm.Change =>
        env.changeResourceRecordSets g.1 g.2 ("Validation DNS for " ++ arn))
      (Acm.groupChanges Acm.UPSERT (zoneIds.zip rrs)) g hg ⟨e, he⟩
    rw [he2]
    exact ⟨e2, rfl⟩

/-- C4 witness: two pending records in two zones, the second zone's
submission failing - the DELETE publish returns the change id and a `none`
in group order, the UPSERT publish rejects as a whole. -/
theorem c4_witness :
    Acm.publishCertValidationDNS envC4 "arn-4" Acm.DELETE = .ok [some "CID1", none]
    ∧ Acm.publishCertValidationDNS envC4 "arn-4" Acm.UPSERT =
        .error "Unable to process change" := by
  constructor
  · have h := (c4_theorem envC4 "arn-4" certC4
      [⟨"_r1.a.z1.com", "CNAME", "_v1.acm-validations.aws"⟩,
       ⟨"_r2.b.z2.com", "CNAME", "_v2.acm-validations.aws"⟩]
      ["a.z1.com", "b.z2.com"] ["Z1", "Z2"] rfl rfl (by decide) (by decide)).1
    rw [h]
    decide
  · decide

/-- C10: `collectPending` keeps exactly the `PENDING_VALIDATION` options
(second conjunct: it is unchanged by pre-filtering to those options), and
for an Amazon-issued certificate with no pending validation option the
publish call returns an empty list for any action - the group list is empty,
so no change batch is built for any submission environment (first
conjunct). -/
theorem c10_theorem (env : Acm.Env) (arn action : String) (cert : Acm.Certificate)
    (h1 : env.describeCertificate arn = .ok cert)
    (h2 : cert.CertType = Acm.AMAZON_ISSUED_CERT_TYPE)
    (h3 : ∀ v ∈ cert.DomainValidationOptions,
        v.ValidationStatus ≠ Acm.PENDING_VALIDATION) :
    Acm.publishCertValidationDNS env arn action = .ok []
    ∧ ∀ opts : List Acm.ValidationOption,
        Acm.collectPending opts =
          Acm.collectPending
            (opts.filter fun v => v.ValidationStatus == Acm.PENDING_VALIDATION) := by
  refine ⟨?_, collectPending_filter⟩
  unfold Acm.publishCertValidationDNS
  rw [h1]
  dsimp only
  rw [if_neg (not_not_intro h2), collectPending_none cert.DomainValidationOptions h3]
  dsimp only
  show Acm.submitGroups env arn action (Acm.groupChanges action ([].zip [])) = .ok []
  unfold Acm.submitGroups Acm.groupChanges
  by_cases ha : action = Acm.DELETE
  · rw [if_pos ha]
    rfl
  · rw [if_neg ha]
    rfl

/-- C10 witness: an Amazon-issued certificate whose only validation option
is already validated publishes nothing and returns the empty list. -/
theorem c10_witness :
    Acm.publishCertValidationDNS envC10 "arn-10" Acm.UPSERT = .ok [] :=
  (c10_theorem envC10 "arn-10" Acm.UPSERT certC10 rfl rfl (by decide)).1

/-- C3 (amended): a Delete event whose physical id is the unassigned
sentinel always ends in a success report (first conjunct) - but only
because a failure of the attempted flow is converted in the error path into
a success with a null data payload (second conjunct); when the flow
succeeds, the provider calls have been made and the change ids are
returned, so neither the null payload nor the absence of provider calls
holds unconditionally.  The remaining-time bound keeps the embedded bounded
polling loop on the code's bounded branch. -/
theorem c3_theorem (env : Acm.Env) (event : Acm.CREvent)
    (h1 : event.RequestType = "Delete")
    (h2 : event.PhysicalResourceId = Acm.DEFAULT_PHYSICAL_RESOURCE_ID)
    (_h3 : Acm.TIMEOUT_MARGIN_OF_SAFETY_MS < env.remainingTimeMs) :
    (Acm.processCREvent env event).isSuccess = true
    ∧ ∀ e, Acm.userHandlerRun env event = .error e →
        Acm.processCREvent env event =
          .success Acm.DEFAULT_PHYSICAL_RESOURCE_ID none := by
  unfold Acm.processCREvent
  cases huser : Acm.userHandlerRun env event with
  | ok r =>
    refine ⟨rfl, ?_⟩
    intro e he
    cases he
  | error err =>
    dsimp only
    rw [if_pos ⟨h1, h2⟩]
    refine ⟨rfl, ?_⟩
    intro e _
    rw [h2]

/-- C3 counterexample: a Delete event carrying the unassigned sentinel in
an environment where every provider call succeeds - the handler reports
success with the non-null change-id payload of the performed provider
calls, refuting "null data payload and zero provider calls". -/
theorem c3_counterexample :
    eventC3.RequestType = "Delete"
    ∧ eventC3.PhysicalResourceId = Acm.DEFAULT_PHYSICAL_RESOURCE_ID
    ∧ Acm.processCREvent envC3 eventC3 =
        .success Acm.DEFAULT_PHYSICAL_RESOURCE_ID (some ⟨[some "CHG1"], none, none⟩) := by
  decide

/-- C3 witness: the amended theorem applied to the concrete sentinel Delete
event. -/
theorem c3_witness : (Acm.processCREvent envC3 eventC3).isSuccess = true :=
  (c3_theorem envC3 eventC3 rfl rfl (by decide)).1

theorem resolveZone_trace (env : Ses.Env) (s : String) :
    ∃ x, (Ses.resolveZone env s).2 = [x] := by
  unfold Ses.resolveZone
  split
  · exact ⟨_, rfl⟩
  · exact ⟨_, rfl⟩

/-- C8: whenever `verifyDomain` with action `DELETE` succeeds, its provider
trace is the zone-resolution call followed by exactly the
identity-verification request, the DKIM signing-key request, the identity
revocation and the change-batch submission, in that order: the token
requests are issued even though the action is a deletion, and the identity
is revoked strictly before the DNS change batch is submitted. -/
theorem c8_theorem (env : Ses.Env) (s : String) (r : Ses.VerifyResult)
    (tr : List Ses.ProviderCall)
    (h : Ses.verifyDomain env s Ses.DELETE = (.ok r, tr)) :
    tr.length = 5
    ∧ tr.get? 1 = some (.verifyDomainIdentity r.domainName)
    ∧ tr.get? 2 = some (.verifyDomainDkim r.domainName)
    ∧ tr.get? 3 = some (.deleteIdentity r.domainName)
    ∧ isChangeSubmission (tr.get? 4) = true := by
  obtain ⟨x, hx⟩ := resolveZone_trace env s
  unfold Ses.verifyDomain at h
  rcases hres : Ses.resolveZone env s with ⟨res, tr0⟩
  rw [hres] at h
  rw [hres] at hx
  simp only at hx
  subst hx
  cases res with
  | error e => simp at h
  | ok zd =>
    dsimp only at h
    cases hvi : env.verifyDomainIdentity zd.2 with
    | error e => rw [hvi] at h; simp at h
    | ok tok =>
      rw [hvi] at h
      dsimp only at h
      cases hdk : env.verifyDomainDkim zd.2 with
      | error e => rw [hdk] at h; simp at h
      | ok toks =>
        rw [hdk] at h
        dsimp only at h
        rw [if_pos rfl, if_pos rfl] at h
        cases hdel : env.deleteIdentity zd.2 with
        | error e => rw [hdel] at h; simp at h
        | ok u =>
          rw [hdel] at h
          dsimp only at h
          cases hch : env.changeResourceRecordSets zd.1
              (Ses.mkVerifyChange Ses.DELETE env.awsRegion zd.2 tok ::
                toks.map (Ses.mkDkimChange Ses.DELETE zd.2)) Ses.SES_CHANGE_COMMENT with
          | error e => rw [hch] at h; simp at h
          | ok cid =>
            rw [hch] at h
            dsimp only at h
            injection h with hr htr
            injection hr with hr2
            subst htr
            have hdom : r.domainName = zd.2 := by rw [← hr2]
            rw [hdom]
            refine ⟨by simp, ?_, ?_, ?_, ?_⟩ <;> simp [isChangeSubmission]

/-- C8 witness: the trace-shape theorem applied to a concrete successful
SES Delete flow. -/
theorem c8_witness :
    (Ses.verifyDomain envC8 "dom.com" Ses.DELETE).2.length = 5
    ∧ (Ses.verifyDomain envC8 "dom.com" Ses.DELETE).2.get? 1 =
        some (.verifyDomainIdentity "dom.com")
    ∧ (Ses.verifyDomain envC8 "dom.com" Ses.DELETE).2.get? 2 =
        some (.verifyDomainDkim "dom.com")
    ∧ (Ses.verifyDomain envC8 "dom.com" Ses.DELETE).2.get? 3 =
        some (.deleteIdentity "dom.com")
    ∧ isChangeSubmission ((Ses.verifyDomain envC8 "dom.com" Ses.DELETE).2.get? 4) = true :=
  c8_theorem envC8 "dom.com" ⟨"dom.com", "SESCHG"⟩
    (Ses.verifyDomain envC8 "dom.com" Ses.DELETE).2 (by decide)

theorem verifyDomain_trace_head (env : Ses.Env) (s a : String) :
    (Ses.verifyDomain env s a).2.head? = (Ses.resolveZone env s).2.head? := by
  obtain ⟨x, hx⟩ := resolveZone_trace env s
  unfold Ses.verifyDomain
  rcases hres : Ses.resolveZone env s with ⟨res, tr0⟩
  rw [hres] at hx
  simp only at hx
  subst hx
  cases res with
  | error e => simp
  | ok zd =>
    dsimp only
    cases env.verifyDomainIdentity zd.2 with
    | error e => simp
    | ok tok =>
      dsimp only
      cases env.verifyDomainDkim zd.2 with
      | error e => simp
      | ok toks =>
        dsimp only
        by_cases hA : a = Ses.DELETE
        · rw [if_pos hA, if_pos hA]
          cases env.deleteIdentity zd.2 with
          | error e => simp
          | ok u =>
            dsimp only
            cases env.changeResourceRecordSets zd.1
                (Ses.mkVerifyChange a env.awsRegion zd.2 tok ::
                  toks.map (Ses.mkDkimChange a zd.2)) Ses.SES_CHANGE_COMMENT with
            | error e => simp
            | ok cid => simp
        · rw [if_neg hA, if_neg hA]
          dsimp only
          cases env.changeResourceRecordSets zd.1
              (Ses.mkVerifyChange a env.awsRegion zd.2 tok ::
                toks.map (Ses.mkDkimChange a zd.2)) Ses.SES_CHANGE_COMMENT with
          | error e => simp
          | ok cid => simp

/-- C9: `verifyDomain` treats its input as a hosted-zone id exactly when it
contains no dot: a dot-free input is used directly as the zone id and only
`getHostedZone` is issued for it (first conjunct), an input containing a
dot is resolved through the exact-name lookup `getZoneIdByName` via a
`listHostedZonesByName` call (second conjunct), and the first provider call
of `verifyDomain` is the id-branch `getHostedZone` call precisely for
dot-free inputs (third conjunct). -/
theorem c9_theorem (env : Ses.Env) (s a : String) :
    (¬ '.' ∈ s.data →
      Ses.resolveZone env s =
        ((env.getHostedZone s).map fun info => (s, info.Name),
         [.getHostedZone s]))
    ∧ ('.' ∈ s.data →
      Ses.resolveZone env s =
        ((Ses.getZoneIdByName env s).map fun zid => (zid, s),
         [.listHostedZonesByName s]))
    ∧ ((Ses.verifyDomain env s a).2.head? = some (.getHostedZone s) ↔ ¬ '.' ∈ s.data) := by
  have h1c : ¬ '.' ∈ s.data →
      Ses.resolveZone env s =
        ((env.getHostedZone s).map fun info => (s, info.Name),
         [.getHostedZone s]) := by
    intro hnd
    unfold Ses.resolveZone
    rw [if_pos ((jsSplitDot_length_one_iff s).mpr hnd)]
    cases hg : env.getHostedZone s <;> simp [hg, Except.map]
  have h2c : '.' ∈ s.data →
      Ses.resolveZone env s =
        ((Ses.getZoneIdByName env s).map fun zid => (zid, s),
         [.listHostedZonesByName s]) := by
    intro hd
    unfold Ses.resolveZone
    rw [if_neg (fun hlen => (jsSplitDot_length_one_iff s).mp hlen hd)]
    cases hg : Ses.getZoneIdByName env s <;> simp [hg, Except.map]
  refine ⟨h1c, h2c, ?_⟩
  rw [verifyDomain_trace_head env s a]
  constructor
  · intro hhead hd
    rw [h2c hd] at hhead
    simp only [List.head?_cons, Option.some_inj] at hhead
    cases hhead
  · intro hnd
    rw [h1c hnd]
    rfl

/-- C9 witness: the classification theorem applied to a dotted zone name
and to a dot-free zone id. -/
theorem c9_witness :
    Ses.resolveZone envC9 "zone9.com" =
      (.ok ("Z91", "zone9.com"), [.listHostedZonesByName "zone9.com"])
    ∧ Ses.resolveZone envC9 "Z92" =
      (.ok ("Z92", "id9.com."), [.getHostedZone "Z92"]) := by
  constructor
  · have h := (c9_theorem envC9 "zone9.com" Ses.UPSERT).2.1 (by decide)
    rw [h]
    decide
  · have h := (c9_theorem envC9 "Z92" Ses.UPSERT).1 (by decide)
    rw [h]
    decide
